import Mathlib

/-!
Verification development for the Reports API repository (Node/TypeScript).

The development shallowly embeds the core of the repository:
* `src/database/inMemoryDb.ts` — the entity store (`InMemoryDatabase`),
* `src/services/report.service.ts` — the report engine (`ReportService`),
* `src/routes/reports.routes.ts` — the PUT and download route handlers,
* `src/services/fileStorage.service.ts` — download-token validation,
* `src/middleware/authorization.middleware.ts` — the `authorize` middleware.

Modelling conventions:
* JavaScript `Map` objects become association lists with first-match lookup
  (`mapGet` / `mapSet` / `mapDelete`).
* ISO datetime strings become epoch-millisecond integers (`Int`); the code only
  ever compares dates, and `new Date(s).getTime()` is order-isomorphic to the
  ISO strings it parses.
* `uuidv4()` and `Date.now()` are nondeterministic inputs, so freshly generated
  ids and the current time are explicit parameters of each operation.
* Thrown `AppError`s become `Except AppError` results; every operation threads
  the mutable store state explicitly and returns the state unchanged on the
  paths where the source throws before performing any write.
* Dynamic payloads (`z.any()`, `metadata`) are kept as an uninterpreted string
  type `JsonVal`; the core never inspects them.
* JavaScript string truthiness (`if (x)`, `x || y`) is modelled by `strTruthy`
  and `strOrElse`: `undefined` ↦ `none`, and the empty string is falsy.
* `Array.prototype.sort` is a stable sort; since a stable sort's output is
  uniquely determined by the comparator, it is modelled by
  `List.insertionSort` (stable) over the comparator's preorder.
-/

/-- ASCII lower-casing of a character, as performed by `toLowerCase` on the
ASCII range (titles in the examples are ASCII; the model does not depend on
the exact case-folding function). -/
def lowerChar (c : Char) : Char :=
  if 'A' ≤ c ∧ c ≤ 'Z' then Char.ofNat (c.toNat + 32) else c

/-- Model of `String.prototype.toLowerCase()`. -/
def lowerStr (s : String) : String :=
  ⟨s.data.map lowerChar⟩

/-- `Map.get` — first-match lookup in an association list. -/
def mapGet {α : Type} (m : List (String × α)) (k : String) : Option α :=
  match m with
  | [] => none
  | (k', v) :: rest => if k' = k then some v else mapGet rest k

/-- `Map.set` — replace the binding if the key is present, else append. -/
def mapSet {α : Type} (m : List (String × α)) (k : String) (v : α) :
    List (String × α) :=
  match m with
  | [] => [(k, v)]
  | (k', v') :: rest => if k' = k then (k, v) :: rest else (k', v') :: mapSet rest k v

/-- `Map.delete` — remove all bindings for the key (maps built through
`mapSet` bind each key at most once, so this agrees with `Map.delete`). -/
def mapDelete {α : Type} (m : List (String × α)) (k : String) :
    List (String × α) :=
  match m with
  | [] => []
  | (k', v') :: rest => if k' = k then mapDelete rest k else (k', v') :: mapDelete rest k

/-- JavaScript truthiness of an optional string: `undefined` and `""` are
falsy. -/
def strTruthy (s : Option String) : Bool :=
  match s with
  | some v => decide (v ≠ "")
  | none => false

/-- JavaScript `u || e` for an optional string `u`. -/
def strOrElse (u : Option String) (e : String) : String :=
  match u with
  | some v => if v = "" then e else v
  | none => e

/-- `Array.prototype.slice(start, stop)` for `0 ≤ start ≤ stop` (clamped at
the end of the list). -/
def jsSlice {α : Type} (l : List α) (start stop : Nat) : List α :=
  (l.drop start).take (stop - start)

/-- `Math.ceil(a / b)` on naturals, for `b > 0`.  (The source only computes
`totalPages` with the caller-supplied positive page size; JavaScript would
yield `Infinity` at size 0.) -/
def jsCeilDiv (a b : Nat) : Nat :=
  (a + b - 1) / b

instance {ε α : Type} [DecidableEq ε] [DecidableEq α] : DecidableEq (Except ε α) :=
  fun x y =>
    match x, y with
    | .ok a, .ok b =>
      if h : a = b then .isTrue (by rw [h]) else .isFalse (fun hh => h (Except.ok.inj hh))
    | .error a, .error b =>
      if h : a = b then .isTrue (by rw [h]) else .isFalse (fun hh => h (Except.error.inj hh))
    | .ok _, .error _ => .isFalse (fun hh => Except.noConfusion hh)
    | .error _, .ok _ => .isFalse (fun hh => Except.noConfusion hh)

/-! ## Domain model (`src/models/report.model.ts`) -/

/-- Uninterpreted JSON-like payload (`z.any()` / `z.record(z.any())`):
carried verbatim, never inspected by the core. -/
abbrev JsonVal := String

inductive Priority
  | low
  | medium
  | high
  | critical
deriving DecidableEq, Repr

/-- The string form of a priority, as it appears in JSON payloads and query
strings. -/
def priorityName (p : Priority) : String :=
  match p with
  | .low => "low"
  | .medium => "medium"
  | .high => "high"
  | .critical => "critical"

inductive EntryStatus
  | pending
  | active
  | completed
  | cancelled
deriving DecidableEq, Repr

inductive ReportStatus
  | draft
  | in_progress
  | under_review
  | finalized
  | archived
deriving DecidableEq, Repr

inductive Role
  | reader
  | editor
deriving DecidableEq, Repr

structure Entry where
  id : String
  priority : Priority
  timestamp : Int
  value : JsonVal
  status : EntryStatus
  notes : Option String := none
deriving DecidableEq, Repr

structure Comment where
  id : String
  text : String
  author : String
  createdAt : Int
  updatedAt : Option Int := none
deriving DecidableEq, Repr

structure Attachment where
  id : String
  filename : String
  originalName : String
  mimeType : String
  size : Nat
  uploadedAt : Int
  uploadedBy : String
  storageKey : String
  downloadToken : Option String := none
  tokenExpiresAt : Option Int := none
deriving DecidableEq, Repr

/-- `CreateReportInput` after `CreateReportSchema.parse` (defaults applied:
`status` defaults to `draft`, `tags` to `[]`). -/
structure CreateReportInput where
  title : String
  ownerId : String
  status : ReportStatus
  description : Option String := none
  metadata : Option JsonVal := none
  tags : List String := []
deriving DecidableEq, Repr

/-- `UpdateReportInput` after `UpdateReportSchema.parse`; every field is
optional, `force` is a request-control flag. -/
structure UpdateReportInput where
  title : Option String := none
  status : Option ReportStatus := none
  description : Option String := none
  metadata : Option JsonVal := none
  tags : Option (List String) := none
  entries : Option (List Entry) := none
  comments : Option (List Comment) := none
  force : Option Bool := none
deriving DecidableEq, Repr

/-- The `before` snapshot built by `ReportService.updateReport`. -/
structure BeforeSnapshot where
  title : String
  status : ReportStatus
  description : Option String
  metadata : Option JsonVal
  tags : List String
deriving DecidableEq, Repr

/-- The `metadata` object attached to an UPDATED audit entry. -/
structure AuditMeta where
  forced : Bool
  idempotencyKey : Option String
deriving DecidableEq, Repr

/-- The raw payload stored in an audit entry's `after` field. -/
inductive AuditPayload
  | createInput (i : CreateReportInput)
  | updateInput (u : UpdateReportInput)
deriving DecidableEq, Repr

structure AuditLogEntry where
  timestamp : Int
  userId : String
  action : String
  before : Option BeforeSnapshot := none
  after : Option AuditPayload := none
  metadata : Option AuditMeta := none
deriving DecidableEq, Repr

structure Report where
  id : String
  title : String
  status : ReportStatus
  ownerId : String
  createdAt : Int
  updatedAt : Int
  version : Nat
  metadata : Option JsonVal
  entries : List Entry
  comments : List Comment
  attachments : List Attachment
  auditLog : List AuditLogEntry
  tags : List String
  description : Option String
deriving DecidableEq, Repr

/-- `Partial<Report>` — the patch object accepted by the store's `update`.
A field set to `some v` is a key present in the object; `none` is an absent
key.  For `Report` fields that are themselves optional, the patch carries the
full optional value. -/
structure ReportPatch where
  id : Option String := none
  title : Option String := none
  status : Option ReportStatus := none
  ownerId : Option String := none
  createdAt : Option Int := none
  updatedAt : Option Int := none
  version : Option Nat := none
  metadata : Option (Option JsonVal) := none
  entries : Option (List Entry) := none
  comments : Option (List Comment) := none
  attachments : Option (List Attachment) := none
  auditLog : Option (List AuditLogEntry) := none
  tags : Option (List String) := none
  description : Option (Option String) := none
deriving DecidableEq, Repr

/-! ## Errors (`src/utils/errors.ts`) -/

/-- Structured detail payloads carried by `AppError.details`. -/
inductive ErrDetails
  | versionConflict (currentVersion providedVersion : Nat)
deriving DecidableEq, Repr

structure AppError where
  statusCode : Nat
  code : String
  message : String
  details : Option ErrDetails := none
deriving DecidableEq, Repr

def duplicateReportError : AppError :=
  { statusCode := 409, code := "DUPLICATE_REPORT",
    message := "A report with this title and owner already exists" }

def reportNotFoundError : AppError :=
  { statusCode := 404, code := "REPORT_NOT_FOUND", message := "Report not found" }

def versionConflictError (currentVersion providedVersion : Nat) : AppError :=
  { statusCode := 409, code := "VERSION_CONFLICT",
    message := "Report has been modified by another user",
    details := some (.versionConflict currentVersion providedVersion) }

def forbiddenEditError : AppError :=
  { statusCode := 403, code := "FORBIDDEN",
    message := "Only editors can modify finalized reports" }

def forceRequiredError : AppError :=
  { statusCode := 400, code := "FORCE_REQUIRED",
    message := "Finalized reports require force=true to edit" }

def unauthorizedError : AppError :=
  { statusCode := 401, code := "UNAUTHORIZED", message := "Authentication required" }

def insufficientPermissionsError : AppError :=
  { statusCode := 403, code := "FORBIDDEN", message := "Insufficient permissions" }

def tokenRequiredError : AppError :=
  { statusCode := 401, code := "TOKEN_REQUIRED", message := "Download token required" }

def invalidTokenError : AppError :=
  { statusCode := 401, code := "INVALID_TOKEN",
    message := "Invalid or expired download token" }

def attachmentNotFoundError : AppError :=
  { statusCode := 404, code := "ATTACHMENT_NOT_FOUND", message := "Attachment not found" }

def tokenMismatchError : AppError :=
  { statusCode := 403, code := "FORBIDDEN", message := "Token does not match attachment" }

def fileNotFoundError : AppError :=
  { statusCode := 404, code := "FILE_NOT_FOUND", message := "File not found" }

def validationError : AppError :=
  { statusCode := 400, code := "VALIDATION_ERROR", message := "Invalid input" }

/-! ## Entity store (`src/database/inMemoryDb.ts`) -/

/-- The two `Map`s held by `InMemoryDatabase`. -/
structure DbState where
  reports : List (String × Report)
  businessKeyIndex : List (String × String)
deriving DecidableEq, Repr

def dbEmpty : DbState := { reports := [], businessKeyIndex := [] }

namespace InMemoryDatabase

/-- `getBusinessKey`: `` `${title.toLowerCase()}:${ownerId}` ``. -/
def getBusinessKey (title ownerId : String) : String :=
  lowerStr title ++ ":" ++ ownerId

/-- `InMemoryDatabase.create`.  `newId` is the fresh `uuidv4()`, `now` the
current time. -/
def create (s : DbState) (report : CreateReportInput) (newId : String)
    (now : Int) : DbState × Except AppError Report :=
  let businessKey := getBusinessKey report.title report.ownerId
  if (mapGet s.businessKeyIndex businessKey).isSome then
    (s, .error duplicateReportError)
  else
    let newReport : Report :=
      { id := newId
        title := report.title
        status := report.status
        ownerId := report.ownerId
        createdAt := now
        updatedAt := now
        version := 1
        metadata := report.metadata
        entries := []
        comments := []
        attachments := []
        auditLog := []
        tags := report.tags
        description := report.description }
    ({ reports := mapSet s.reports newId newReport,
       businessKeyIndex := mapSet s.businessKeyIndex businessKey newId },
     .ok newReport)

def getById (s : DbState) (id : String) : Option Report :=
  mapGet s.reports id

/-- `{...existing, ...updates, id: existing.id, createdAt: existing.createdAt,
updatedAt: new Date().toISOString(), version: existing.version + 1}` — the
shallow merge performed by `update`; the pinned fields are written after the
spread and therefore win over any caller-supplied values. -/
def mergeReport (existing : Report) (updates : ReportPatch) (now : Int) :
    Report :=
  { id := existing.id
    title := updates.title.getD existing.title
    status := updates.status.getD existing.status
    ownerId := updates.ownerId.getD existing.ownerId
    createdAt := existing.createdAt
    updatedAt := now
    version := existing.version + 1
    metadata := updates.metadata.getD existing.metadata
    entries := updates.entries.getD existing.entries
    comments := updates.comments.getD existing.comments
    attachments := updates.attachments.getD existing.attachments
    auditLog := updates.auditLog.getD existing.auditLog
    tags := updates.tags.getD existing.tags
    description := updates.description.getD existing.description }

/-- The business-key re-indexing step of `update`: runs only when
`updates.title || updates.ownerId` is truthy, and either throws
`DUPLICATE_REPORT` or returns the new index. -/
def updateIndexCheck (s : DbState) (id : String) (existing : Report)
    (updates : ReportPatch) : Except AppError (List (String × String)) :=
  if strTruthy updates.title || strTruthy updates.ownerId then
    let oldBusinessKey := getBusinessKey existing.title existing.ownerId
    let newTitle := strOrElse updates.title existing.title
    let newOwnerId := strOrElse updates.ownerId existing.ownerId
    let newBusinessKey := getBusinessKey newTitle newOwnerId
    if oldBusinessKey ≠ newBusinessKey then
      if (mapGet s.businessKeyIndex newBusinessKey).isSome ∧
          mapGet s.businessKeyIndex newBusinessKey ≠ some id then
        .error duplicateReportError
      else
        .ok (mapSet (mapDelete s.businessKeyIndex oldBusinessKey) newBusinessKey id)
    else
      .ok s.businessKeyIndex
  else
    .ok s.businessKeyIndex

/-- `InMemoryDatabase.update`. -/
def update (s : DbState) (id : String) (updates : ReportPatch) (now : Int) :
    DbState × Except AppError Report :=
  match mapGet s.reports id with
  | none => (s, .error reportNotFoundError)
  | some existing =>
    match updateIndexCheck s id existing updates with
    | .error e => (s, .error e)
    | .ok newIndex =>
      ({ reports := mapSet s.reports id (mergeReport existing updates now),
         businessKeyIndex := newIndex },
       .ok (mergeReport existing updates now))

/-- `InMemoryDatabase.delete`. -/
def delete (s : DbState) (id : String) : DbState × Bool :=
  match mapGet s.reports id with
  | none => (s, false)
  | some report =>
    let businessKey := getBusinessKey report.title report.ownerId
    ({ reports := mapDelete s.reports id,
       businessKeyIndex := mapDelete s.businessKeyIndex businessKey }, true)

def getAll (s : DbState) : List Report :=
  s.reports.map Prod.snd

end InMemoryDatabase

example :
    (InMemoryDatabase.create dbEmpty
      { title := "Q4", ownerId := "u1", status := .draft } "id1" 0).2 =
    .ok { id := "id1", title := "Q4", status := .draft, ownerId := "u1",
          createdAt := 0, updatedAt := 0, version := 1, metadata := none,
          entries := [], comments := [], attachments := [], auditLog := [],
          tags := [], description := none } := by decide

example :
    InMemoryDatabase.getBusinessKey "A:b" "c" =
      InMemoryDatabase.getBusinessKey "a" "b:c" := by decide

/-! ## Report engine (`src/services/report.service.ts`) -/

/-- The computed metrics object returned by `ReportService.computeFields`. -/
structure ComputedReportFields where
  totalEntries : Nat
  completedEntries : Nat
  recentActivityCount : Nat
  highPriorityCount : Nat
  averageCompletionTime : Option Nat
deriving DecidableEq, Repr

/-- The value returned by `filterAndPaginateEntries`: either the bare entry
list, or the `{data, pagination}` wrapper produced when both `page` and
`size` are supplied. -/
inductive EntriesProjection
  | plain (entries : List Entry)
  | paged (data : List Entry) (page size total totalPages : Nat)
deriving DecidableEq, Repr

/-- A JSON field value as it appears in a projection built by
`getReportWithView`; projections are association lists of named fields so
that key presence and absence are explicit. -/
inductive JsField
  | str (s : String)
  | time (t : Int)
  | num (n : Nat)
  | optNum (n : Option Nat)
  | reportStatus (st : ReportStatus)
  | optStr (s : Option String)
  | optJson (j : Option JsonVal)
  | pagedEntries (p : EntriesProjection)
  | commentList (l : List Comment)
  | attachmentList (l : List Attachment)
  | auditList (l : List AuditLogEntry)
  | tagList (l : List String)
  | metrics (m : ComputedReportFields)
deriving DecidableEq, Repr

/-- Severity rank used by the `sortBy=priority` comparator:
`{ critical: 0, high: 1, medium: 2, low: 3 }`. -/
def priorityRank (p : Priority) : Nat :=
  match p with
  | .critical => 0
  | .high => 1
  | .medium => 2
  | .low => 3

namespace ReportService

/-- `ReportService.computeFields`.  `now` is `Date.now()` in
epoch milliseconds. -/
def computeFields (report : Report) (now : Int) : ComputedReportFields :=
  let sevenDaysAgo : Int := now - 7 * 24 * 60 * 60 * 1000
  let completed := report.entries.filter (fun e => decide (e.status = .completed))
  { totalEntries := report.entries.length
    completedEntries := completed.length
    recentActivityCount :=
      (report.entries.filter (fun e => decide (sevenDaysAgo < e.timestamp))).length
    highPriorityCount :=
      (report.entries.filter
        (fun e => decide (e.priority = .high) || decide (e.priority = .critical))).length
    averageCompletionTime := if 0 < completed.length then some 24 else none }

/-- `ReportService.filterAndPaginateEntries`. -/
def filterAndPaginateEntries (entries : List Entry) (page size : Option Nat)
    (sortBy filterPriority : Option String) : EntriesProjection :=
  let filtered :=
    if strTruthy filterPriority then
      entries.filter (fun e => decide (priorityName e.priority = filterPriority.getD ""))
    else entries
  let sorted :=
    if sortBy = some "priority" then
      List.insertionSort
        (fun a b => priorityRank a.priority ≤ priorityRank b.priority) filtered
    else if sortBy = some "recency" ∨ sortBy = some "timestamp" then
      List.insertionSort (fun a b => b.timestamp ≤ a.timestamp) filtered
    else filtered
  match page, size with
  | some p, some sz =>
    .paged (jsSlice sorted (p * sz) (p * sz + sz)) p sz sorted.length
      (jsCeilDiv sorted.length sz)
  | _, _ => .plain sorted

/-- The object literal returned by `getReportWithView` for `view=summary`:
the six base fields spread with the full result of `computeFields` (the
spread also carries `averageCompletionTime`). -/
def summaryView (report : Report) (now : Int) : List (String × JsField) :=
  let cf := computeFields report now
  [("id", .str report.id),
   ("title", .str report.title),
   ("status", .reportStatus report.status),
   ("ownerId", .str report.ownerId),
   ("createdAt", .time report.createdAt),
   ("updatedAt", .time report.updatedAt),
   ("totalEntries", .num cf.totalEntries),
   ("completedEntries", .num cf.completedEntries),
   ("recentActivityCount", .num cf.recentActivityCount),
   ("highPriorityCount", .num cf.highPriorityCount),
   ("averageCompletionTime", .optNum cf.averageCompletionTime)]

/-- The `include`-driven projection: the seven base fields, then each
requested optional field in the order the handler checks them. -/
def includeView (report : Report) (includes : List String)
    (page size : Option Nat) (sortBy filterPriority : Option String)
    (now : Int) : List (String × JsField) :=
  [("id", .str report.id),
   ("title", .str report.title),
   ("status", .reportStatus report.status),
   ("ownerId", .str report.ownerId),
   ("createdAt", .time report.createdAt),
   ("updatedAt", .time report.updatedAt),
   ("version", .num report.version)]
  ++ (if "entries" ∈ includes then
        [("entries", .pagedEntries
          (filterAndPaginateEntries report.entries page size sortBy filterPriority))]
      else [])
  ++ (if "metrics" ∈ includes then [("metrics", .metrics (computeFields report now))] else [])
  ++ (if "comments" ∈ includes then [("comments", .commentList report.comments)] else [])
  ++ (if "attachments" ∈ includes then
        [("attachments", .attachmentList report.attachments)] else [])
  ++ (if "metadata" ∈ includes then [("metadata", .optJson report.metadata)] else [])
  ++ (if "tags" ∈ includes then [("tags", .tagList report.tags)] else [])
  ++ (if "auditLog" ∈ includes then [("auditLog", .auditList report.auditLog)] else [])

/-- The default projection: `{...report}` with `entries` replaced by the
filtered/paginated projection. -/
def defaultView (report : Report) (page size : Option Nat)
    (sortBy filterPriority : Option String) : List (String × JsField) :=
  [("id", .str report.id),
   ("title", .str report.title),
   ("status", .reportStatus report.status),
   ("ownerId", .str report.ownerId),
   ("createdAt", .time report.createdAt),
   ("updatedAt", .time report.updatedAt),
   ("version", .num report.version),
   ("metadata", .optJson report.metadata),
   ("entries", .pagedEntries
     (filterAndPaginateEntries report.entries page size sortBy filterPriority)),
   ("comments", .commentList report.comments),
   ("attachments", .attachmentList report.attachments),
   ("auditLog", .auditList report.auditLog),
   ("tags", .tagList report.tags),
   ("description", .optStr report.description)]

/-- `ReportService.getReportWithView`. -/
def getReportWithView (s : DbState) (id : String) (view : Option String)
    (includes : Option (List String)) (page size : Option Nat)
    (sortBy filterPriority : Option String) (now : Int) :
    Except AppError (List (String × JsField)) :=
  match mapGet s.reports id with
  | none => .error reportNotFoundError
  | some report =>
    if view = some "summary" then
      .ok (summaryView report now)
    else
      match includes with
      | some inc =>
        if 0 < inc.length then
          .ok (includeView report inc page size sortBy filterPriority now)
        else
          .ok (defaultView report page size sortBy filterPriority)
      | none => .ok (defaultView report page size sortBy filterPriority)

/-- `ReportService.createReport`: store `create`, then one CREATED audit
entry appended through store `update`. -/
def createReport (s : DbState) (input : CreateReportInput) (userId : String)
    (newId : String) (now : Int) : DbState × Except AppError Report :=
  match InMemoryDatabase.create s input newId now with
  | (s', .error e) => (s', .error e)
  | (s', .ok report) =>
    let auditEntry : AuditLogEntry :=
      { timestamp := now, userId := userId, action := "CREATED",
        after := some (.createInput input) }
    InMemoryDatabase.update s' report.id { auditLog := some [auditEntry] } now

/-- The `auditEntry` object literal built by `ReportService.updateReport`
(action UPDATED, `before` snapshot, `after` = the raw payload,
`metadata.forced` = the force flag's truthiness). -/
def updateAuditEntry (existing : Report) (updates : UpdateReportInput)
    (userId : String) (idempotencyKey : Option String) (now : Int) :
    AuditLogEntry :=
  { timestamp := now
    userId := userId
    action := "UPDATED"
    before := some
      { title := existing.title, status := existing.status,
        description := existing.description, metadata := existing.metadata,
        tags := existing.tags }
    after := some (.updateInput updates)
    metadata := some
      { forced := updates.force.getD false, idempotencyKey := idempotencyKey } }

/-- `const {force, ...actualUpdates} = updates` plus the appended audit log:
the patch actually handed to the store (no `force` field, `auditLog`
extended by the new entry). -/
def actualUpdates (existing : Report) (updates : UpdateReportInput)
    (auditEntry : AuditLogEntry) : ReportPatch :=
  { title := updates.title
    status := updates.status
    description := updates.description.map some
    metadata := updates.metadata.map some
    tags := updates.tags
    entries := updates.entries
    comments := updates.comments
    auditLog := some (existing.auditLog ++ [auditEntry]) }

/-- The body of `ReportService.updateReport` after the optimistic-concurrency
check: finalized-status protection, audit construction, `force` stripping,
and the store write. -/
def updateReportChecked (s : DbState) (id : String) (updates : UpdateReportInput)
    (userId : String) (userRole : Role) (existing : Report)
    (idempotencyKey : Option String) (now : Int) :
    DbState × Except AppError Report :=
  let statusCheck : Option AppError :=
    if existing.status = .finalized then
      if userRole ≠ .editor then some forbiddenEditError
      else if ¬ (updates.force.getD false) then some forceRequiredError
      else none
    else none
  match statusCheck with
  | some e => (s, .error e)
  | none =>
    InMemoryDatabase.update s id
      (actualUpdates existing updates
        (updateAuditEntry existing updates userId idempotencyKey now)) now

/-- `ReportService.updateReport`.  `version` is the parsed `If-Match`
header. -/
def updateReport (s : DbState) (id : String) (updates : UpdateReportInput)
    (userId : String) (userRole : Role) (version : Option Nat)
    (idempotencyKey : Option String) (now : Int) :
    DbState × Except AppError Report :=
  match mapGet s.reports id with
  | none => (s, .error reportNotFoundError)
  | some existing =>
    match version with
    | some v =>
      if existing.version ≠ v then
        (s, .error (versionConflictError existing.version v))
      else
        updateReportChecked s id updates userId userRole existing idempotencyKey now
    | none =>
      updateReportChecked s id updates userId userRole existing idempotencyKey now

/-- `ReportService.addAttachment`. -/
def addAttachment (s : DbState) (reportId : String) (attachment : Attachment)
    (now : Int) : DbState × Except AppError Report :=
  match mapGet s.reports reportId with
  | none => (s, .error reportNotFoundError)
  | some report =>
    InMemoryDatabase.update s reportId
      { attachments := some (report.attachments ++ [attachment]) } now

end ReportService

/-- `CreateReportSchema.parse`: the raw request body, before defaults. -/
structure CreateReportRequest where
  title : String
  ownerId : String
  status : Option ReportStatus := none
  description : Option String := none
  metadata : Option JsonVal := none
  tags : Option (List String) := none
deriving DecidableEq, Repr

/-- Zod validation and defaulting for `POST /reports` bodies: title length
1–200, `status` defaults to `draft`, `tags` to `[]`. -/
def parseCreateReport (r : CreateReportRequest) : Except AppError CreateReportInput :=
  if r.title.length < 1 ∨ 200 < r.title.length then
    .error validationError
  else
    .ok { title := r.title, ownerId := r.ownerId,
          status := r.status.getD .draft, description := r.description,
          metadata := r.metadata, tags := r.tags.getD [] }

/-! ## File storage (`src/services/fileStorage.service.ts`) -/

/-- The state owned by `FileStorageService`: stored files
(filename ↦ bytes, where the filename is the storage key plus the original
extension) and the download-token map (token ↦ (storageKey, expiresAt)). -/
structure FileState where
  files : List (String × String)
  downloadTokens : List (String × (String × Int))
deriving DecidableEq, Repr

namespace FileStorage

/-- `cleanupExpiredTokens`. -/
def cleanupExpiredTokens (fs : FileState) (now : Int) : FileState :=
  { fs with downloadTokens :=
      fs.downloadTokens.filter (fun t => decide (¬ t.2.2 < now)) }

/-- `generateDownloadToken`; `token` is the fresh random token. -/
def generateDownloadToken (fs : FileState) (token storageKey : String)
    (expiresInMinutes : Int) (now : Int) : FileState :=
  let expiresAt := now + expiresInMinutes * 60 * 1000
  cleanupExpiredTokens
    { fs with downloadTokens := mapSet fs.downloadTokens token (storageKey, expiresAt) }
    now

/-- `validateDownloadToken`: resolves the token to its storage key; an
expired token is deleted and treated as absent. -/
def validateDownloadToken (fs : FileState) (token : String) (now : Int) :
    FileState × Option String :=
  match mapGet fs.downloadTokens token with
  | none => (fs, none)
  | some (storageKey, expiresAt) =>
    if expiresAt < now then
      ({ fs with downloadTokens := mapDelete fs.downloadTokens token }, none)
    else
      (fs, some storageKey)

/-- `retrieve`: finds the first stored file whose name starts with the
storage key. -/
def retrieve (fs : FileState) (storageKey : String) : Except AppError String :=
  match fs.files.find? (fun f => storageKey.data.isPrefixOf f.1.data) with
  | none => .error fileNotFoundError
  | some f => .ok f.2

end FileStorage

/-! ## Routes and middleware (`src/routes/reports.routes.ts`,
`src/middleware/authorization.middleware.ts`) -/

/-- The verified identity injected by the authentication middleware. -/
structure User where
  userId : String
  username : String
  role : Role
deriving DecidableEq, Repr

/-- The `authorize(...allowedRoles)` middleware: 401 without an identity,
403 when the role is not allowed. -/
def authorize (allowedRoles : List Role) (user : Option User) : Option AppError :=
  match user with
  | none => some unauthorizedError
  | some u => if u.role ∉ allowedRoles then some insufficientPermissionsError else none

namespace Routes

/-- The `PUT /reports/:id` handler body after authorization: service call,
then idempotency-cache fill. -/
def putReportRun (s : DbState) (cache : List (String × Report)) (u : User)
    (id : String) (ifMatch : Option Nat) (idempotencyKey : Option String)
    (body : UpdateReportInput) (now : Int) :
    (DbState × List (String × Report)) × Except AppError Report :=
  match ReportService.updateReport s id body u.userId u.role ifMatch idempotencyKey now with
  | (s', .ok updated) =>
    ((s', match idempotencyKey with
          | some k => mapSet cache k updated
          | none => cache), .ok updated)
  | (s', .error e) => ((s', cache), .error e)

/-- `PUT /reports/:id`: `authenticate` has produced `user` (or `none`),
`authorize('editor')` gates the role, then the handler checks the
idempotency cache and runs the update. -/
def putReport (s : DbState) (cache : List (String × Report)) (user : Option User)
    (id : String) (ifMatch : Option Nat) (idempotencyKey : Option String)
    (body : UpdateReportInput) (now : Int) :
    (DbState × List (String × Report)) × Except AppError Report :=
  match authorize [Role.editor] user, user with
  | some e, _ => ((s, cache), .error e)
  | none, none =>
    -- `authorize` rejects a missing identity, so this branch is unreachable.
    ((s, cache), .error unauthorizedError)
  | none, some u =>
    match idempotencyKey with
    | some k =>
      match mapGet cache k with
      | some cached => ((s, cache), .ok cached)
      | none => putReportRun s cache u id ifMatch (some k) body now
    | none => putReportRun s cache u id ifMatch none body now

/-- The response of a successful download: the `Content-Type` header, the
`Content-Disposition` filename, and the served bytes. -/
structure DownloadResponse where
  mimeType : String
  filename : String
  bytes : String
deriving DecidableEq, Repr

/-- `GET /reports/:id/attachments/:attachmentId/download`. -/
def downloadAttachment (s : DbState) (fs : FileState) (id attachmentId : String)
    (token : Option String) (now : Int) :
    FileState × Except AppError DownloadResponse :=
  if ¬ strTruthy token then
    (fs, .error tokenRequiredError)
  else
    match FileStorage.validateDownloadToken fs (token.getD "") now with
    | (fs', none) => (fs', .error invalidTokenError)
    | (fs', some storageKey) =>
      match mapGet s.reports id with
      | none => (fs', .error reportNotFoundError)
      | some report =>
        match report.attachments.find? (fun a => decide (a.id = attachmentId)) with
        | none => (fs', .error attachmentNotFoundError)
        | some attachment =>
          if attachment.storageKey ≠ storageKey then
            (fs', .error tokenMismatchError)
          else
            match FileStorage.retrieve fs' storageKey with
            | .error e => (fs', .error e)
            | .ok bytes =>
              (fs', .ok { mimeType := attachment.mimeType,
                          filename := attachment.originalName, bytes := bytes })

end Routes

/-! ## Association-map lemmas -/

theorem mapGet_set_self {α : Type} (m : List (String × α)) (k : String) (v : α) :
    mapGet (mapSet m k v) k = some v := by
  induction m with
  | nil => simp [mapSet, mapGet]
  | cons hd tl ih =>
    obtain ⟨k', v'⟩ := hd
    by_cases h : k' = k
    · simp [mapSet, h, mapGet]
    · simp [mapSet, h, mapGet, ih]

theorem mapGet_set_ne {α : Type} (m : List (String × α)) (k k' : String) (v : α)
    (h : k' ≠ k) : mapGet (mapSet m k v) k' = mapGet m k' := by
  induction m with
  | nil =>
    simp only [mapSet, mapGet]
    rw [if_neg (Ne.symm h)]
  | cons hd tl ih =>
    obtain ⟨k₀, v₀⟩ := hd
    by_cases h₀ : k₀ = k
    · subst h₀
      simp only [mapSet, if_pos rfl, mapGet]
      rw [if_neg (Ne.symm h), if_neg (Ne.symm h)]
    · simp only [mapSet, if_neg h₀, mapGet]
      by_cases h₁ : k₀ = k'
      · simp [h₁]
      · simp [h₁, ih]

theorem mapGet_del_self {α : Type} (m : List (String × α)) (k : String) :
    mapGet (mapDelete m k) k = none := by
  induction m with
  | nil => simp [mapDelete, mapGet]
  | cons hd tl ih =>
    obtain ⟨k₀, v₀⟩ := hd
    by_cases h : k₀ = k
    · simp [mapDelete, h, ih]
    · simp [mapDelete, h, mapGet, ih]

theorem mapGet_del_ne {α : Type} (m : List (String × α)) (k k' : String)
    (h : k' ≠ k) : mapGet (mapDelete m k) k' = mapGet m k' := by
  induction m with
  | nil => simp [mapDelete, mapGet]
  | cons hd tl ih =>
    obtain ⟨k₀, v₀⟩ := hd
    by_cases h₀ : k₀ = k
    · subst h₀
      simp [mapDelete, mapGet, ih, Ne.symm h]
    · simp only [mapDelete, if_neg h₀, mapGet]
      by_cases h₁ : k₀ = k'
      · simp [h₁]
      · simp [h₁, ih]

/-! ## Store invariant: consistency of the business-key index -/

/-- The store's internal consistency: every live report is indexed at its
business key, and every index entry points to a live report carrying that
key. -/
def Wf (s : DbState) : Prop :=
  (∀ id r, mapGet s.reports id = some r →
      mapGet s.businessKeyIndex (InMemoryDatabase.getBusinessKey r.title r.ownerId) =
        some id) ∧
  (∀ k id, mapGet s.businessKeyIndex k = some id →
      ∃ r, mapGet s.reports id = some r ∧
        InMemoryDatabase.getBusinessKey r.title r.ownerId = k)

/-- A patch whose `title` and `ownerId` fields, when present, are non-empty
strings (so JavaScript truthiness coincides with key presence).  Patches
issued by the service layer satisfy this: `UpdateReportSchema` requires
`title` to have length ≥ 1 and never passes `ownerId`. -/
def GoodPatch (u : ReportPatch) : Prop :=
  u.title ≠ some "" ∧ u.ownerId ≠ some ""

theorem strOrElse_eq_getD (u : Option String) (e : String) (h : u ≠ some "") :
    strOrElse u e = u.getD e := by
  cases u with
  | none => rfl
  | some v =>
    have hv : v ≠ "" := fun hv => h (by rw [hv])
    simp [strOrElse, hv]

theorem strTruthy_false (u : Option String) (h : u ≠ some "")
    (ht : strTruthy u = false) : u = none := by
  cases u with
  | none => rfl
  | some v =>
    have hv : v ≠ "" := fun hv => h (by rw [hv])
    simp [strTruthy, hv] at ht

theorem wf_empty : Wf dbEmpty := by
  constructor
  · intro id r hr
    simp [dbEmpty, mapGet] at hr
  · intro k id hk
    simp [dbEmpty, mapGet] at hk

/-- Replacing a live report by one with the same business key preserves
consistency. -/
theorem wf_set_same_key (s : DbState) (id : String) (ex r' : Report)
    (hwf : Wf s) (hex : mapGet s.reports id = some ex)
    (hkey : InMemoryDatabase.getBusinessKey r'.title r'.ownerId =
      InMemoryDatabase.getBusinessKey ex.title ex.ownerId) :
    Wf { reports := mapSet s.reports id r',
         businessKeyIndex := s.businessKeyIndex } := by
  constructor
  · intro id0 r0 hr0
    simp only at hr0 ⊢
    by_cases hid : id0 = id
    · subst hid
      rw [mapGet_set_self] at hr0
      cases hr0
      rw [hkey]
      exact hwf.1 id0 ex hex
    · rw [mapGet_set_ne _ _ _ _ hid] at hr0
      exact hwf.1 id0 r0 hr0
  · intro k i hk
    simp only at hk ⊢
    obtain ⟨r, hr, hrk⟩ := hwf.2 k i hk
    by_cases hid : i = id
    · subst hid
      refine ⟨r', ?_, ?_⟩
      · rw [mapGet_set_self]
      · rw [hr] at hex
        cases hex
        rw [hkey, hrk]
    · exact ⟨r, by rw [mapGet_set_ne _ _ _ _ hid]; exact hr, hrk⟩

/-- Re-keying a live report to a business key that is not in the index
preserves consistency. -/
theorem wf_set_rekey (s : DbState) (id : String) (ex r' : Report)
    (hwf : Wf s) (hex : mapGet s.reports id = some ex)
    (hnew : mapGet s.businessKeyIndex
      (InMemoryDatabase.getBusinessKey r'.title r'.ownerId) = none) :
    Wf { reports := mapSet s.reports id r',
         businessKeyIndex :=
           mapSet (mapDelete s.businessKeyIndex
             (InMemoryDatabase.getBusinessKey ex.title ex.ownerId))
             (InMemoryDatabase.getBusinessKey r'.title r'.ownerId) id } := by
  set oldKey := InMemoryDatabase.getBusinessKey ex.title ex.ownerId with holdKey
  set newKey := InMemoryDatabase.getBusinessKey r'.title r'.ownerId with hnewKey
  constructor
  · intro id0 r0 hr0
    simp only at hr0 ⊢
    by_cases hid : id0 = id
    · subst hid
      rw [mapGet_set_self] at hr0
      cases hr0
      rw [← hnewKey, mapGet_set_self]
    · rw [mapGet_set_ne _ _ _ _ hid] at hr0
      have hidx := hwf.1 id0 r0 hr0
      have hk_old : InMemoryDatabase.getBusinessKey r0.title r0.ownerId ≠ oldKey := by
        intro hcontra
        rw [hcontra] at hidx
        rw [hwf.1 id ex hex] at hidx
        cases hidx
        exact hid rfl
      have hk_new : InMemoryDatabase.getBusinessKey r0.title r0.ownerId ≠ newKey := by
        intro hcontra
        rw [hcontra] at hidx
        rw [hnew] at hidx
        cases hidx
      rw [mapGet_set_ne _ _ _ _ hk_new, mapGet_del_ne _ _ _ hk_old]
      exact hidx
  · intro k i hk
    simp only at hk ⊢
    by_cases hknew : k = newKey
    · subst hknew
      rw [mapGet_set_self] at hk
      cases hk
      exact ⟨r', by rw [mapGet_set_self], rfl⟩
    · rw [mapGet_set_ne _ _ _ _ hknew] at hk
      by_cases hkold : k = oldKey
      · subst hkold
        rw [mapGet_del_self] at hk
        cases hk
      · rw [mapGet_del_ne _ _ _ hkold] at hk
        obtain ⟨r, hr, hrk⟩ := hwf.2 k i hk
        have hiid : i ≠ id := by
          intro hcontra
          subst hcontra
          rw [hr] at hex
          cases hex
          exact hkold hrk.symm
        exact ⟨r, by rw [mapGet_set_ne _ _ _ _ hiid]; exact hr, hrk⟩

theorem wf_create (s : DbState) (input : CreateReportInput) (newId : String)
    (now : Int) (hwf : Wf s) (hfresh : mapGet s.reports newId = none) :
    Wf (InMemoryDatabase.create s input newId now).1 := by
  unfold InMemoryDatabase.create
  cases hidx : mapGet s.businessKeyIndex
      (InMemoryDatabase.getBusinessKey input.title input.ownerId) with
  | some id0 => simp only [hidx, Option.isSome_some, if_true]; exact hwf
  | none =>
    simp only [hidx, Option.isSome_none, Bool.false_eq_true, if_false]
    constructor
    · intro id r hr
      simp only at hr ⊢
      by_cases hid : id = newId
      · subst hid
        rw [mapGet_set_self] at hr
        cases hr
        rw [mapGet_set_self]
      · rw [mapGet_set_ne _ _ _ _ hid] at hr
        have hkr := hwf.1 id r hr
        have hne : InMemoryDatabase.getBusinessKey r.title r.ownerId ≠
            InMemoryDatabase.getBusinessKey input.title input.ownerId := by
          intro hcontra
          rw [hcontra, hidx] at hkr
          cases hkr
        rw [mapGet_set_ne _ _ _ _ hne]
        exact hkr
    · intro k i hk
      simp only at hk ⊢
      by_cases hknew : k = InMemoryDatabase.getBusinessKey input.title input.ownerId
      · subst hknew
        rw [mapGet_set_self] at hk
        cases hk
        exact ⟨_, by rw [mapGet_set_self], rfl⟩
      · rw [mapGet_set_ne _ _ _ _ hknew] at hk
        obtain ⟨r, hr, hrk⟩ := hwf.2 k i hk
        have hiid : i ≠ newId := by
          intro hcontra
          subst hcontra
          rw [hfresh] at hr
          cases hr
        exact ⟨r, by rw [mapGet_set_ne _ _ _ _ hiid]; exact hr, hrk⟩

/-- Characterization of a successful `updateIndexCheck` on a consistent
store, for patches with truthy-iff-present `title`/`ownerId`: either the
merged business key is unchanged and the index is untouched, or the report
is re-keyed to a key that was free. -/
theorem updateIndexCheck_ok (s : DbState) (id : String) (existing : Report)
    (u : ReportPatch) (idx : List (String × String))
    (hwf : Wf s) (hex : mapGet s.reports id = some existing)
    (hgood : GoodPatch u)
    (h : InMemoryDatabase.updateIndexCheck s id existing u = .ok idx) :
    (idx = s.businessKeyIndex ∧
      InMemoryDatabase.getBusinessKey (u.title.getD existing.title)
          (u.ownerId.getD existing.ownerId) =
        InMemoryDatabase.getBusinessKey existing.title existing.ownerId) ∨
    (idx = mapSet
        (mapDelete s.businessKeyIndex
          (InMemoryDatabase.getBusinessKey existing.title existing.ownerId))
        (InMemoryDatabase.getBusinessKey (u.title.getD existing.title)
          (u.ownerId.getD existing.ownerId)) id ∧
      mapGet s.businessKeyIndex
        (InMemoryDatabase.getBusinessKey (u.title.getD existing.title)
          (u.ownerId.getD existing.ownerId)) = none) := by
  unfold InMemoryDatabase.updateIndexCheck at h
  rw [strOrElse_eq_getD u.title existing.title hgood.1,
      strOrElse_eq_getD u.ownerId existing.ownerId hgood.2] at h
  by_cases htr : (strTruthy u.title || strTruthy u.ownerId) = true
  · rw [if_pos htr] at h
    by_cases hkeys : InMemoryDatabase.getBusinessKey existing.title existing.ownerId ≠
        InMemoryDatabase.getBusinessKey (u.title.getD existing.title)
          (u.ownerId.getD existing.ownerId)
    · rw [if_pos hkeys] at h
      by_cases hdup : (mapGet s.businessKeyIndex
            (InMemoryDatabase.getBusinessKey (u.title.getD existing.title)
              (u.ownerId.getD existing.ownerId))).isSome ∧
          mapGet s.businessKeyIndex
            (InMemoryDatabase.getBusinessKey (u.title.getD existing.title)
              (u.ownerId.getD existing.ownerId)) ≠ some id
      · rw [if_pos hdup] at h
        cases h
      · rw [if_neg hdup] at h
        cases h
        refine .inr ⟨rfl, ?_⟩
        cases hnk : mapGet s.businessKeyIndex
            (InMemoryDatabase.getBusinessKey (u.title.getD existing.title)
              (u.ownerId.getD existing.ownerId)) with
        | none => rfl
        | some j =>
          exfalso
          have hj : j = id := by
            by_contra hj
            exact hdup ⟨by rw [hnk]; rfl, by rw [hnk]; intro hc; exact hj (Option.some.inj hc)⟩
          subst hj
          obtain ⟨r, hr, hrk⟩ := hwf.2 _ j hnk
          rw [hex] at hr
          cases hr
          exact hkeys hrk
    · rw [if_neg hkeys] at h
      cases h
      push_neg at hkeys
      exact .inl ⟨rfl, hkeys.symm⟩
  · rw [if_neg htr] at h
    cases h
    have ht : strTruthy u.title = false := by
      cases hh : strTruthy u.title
      · rfl
      · exact absurd (by rw [hh]; simp) htr
    have ho : strTruthy u.ownerId = false := by
      cases hh : strTruthy u.ownerId
      · rfl
      · exact absurd (by rw [hh]; simp) htr
    have ht' := strTruthy_false u.title hgood.1 ht
    have ho' := strTruthy_false u.ownerId hgood.2 ho
    rw [ht', ho']
    exact .inl ⟨rfl, rfl⟩

/-- A store `update` that throws leaves the state unchanged. -/
theorem update_error_state (s : DbState) (id : String) (u : ReportPatch)
    (now : Int) (s' : DbState) (e : AppError)
    (h : InMemoryDatabase.update s id u now = (s', .error e)) : s' = s := by
  unfold InMemoryDatabase.update at h
  split at h
  · rw [Prod.mk.injEq] at h
    exact h.1.symm
  · split at h
    · rw [Prod.mk.injEq] at h
      exact h.1.symm
    · rw [Prod.mk.injEq] at h
      exact absurd h.2 (fun hc => Except.noConfusion hc)

/-- Inversion of a successful store `update`. -/
theorem update_ok_inv (s : DbState) (id : String) (u : ReportPatch) (now : Int)
    (s' : DbState) (r' : Report)
    (h : InMemoryDatabase.update s id u now = (s', .ok r')) :
    ∃ existing newIndex,
      mapGet s.reports id = some existing ∧
      InMemoryDatabase.updateIndexCheck s id existing u = .ok newIndex ∧
      r' = InMemoryDatabase.mergeReport existing u now ∧
      s' = { reports := mapSet s.reports id r', businessKeyIndex := newIndex } := by
  unfold InMemoryDatabase.update at h
  split at h
  · rw [Prod.mk.injEq] at h
    exact absurd h.2 (fun hc => Except.noConfusion hc)
  · rename_i existing hex
    split at h
    · rw [Prod.mk.injEq] at h
      exact absurd h.2 (fun hc => Except.noConfusion hc)
    · rename_i idx hchk
      rw [Prod.mk.injEq] at h
      have hr' : r' = InMemoryDatabase.mergeReport existing u now :=
        (Except.ok.inj h.2).symm
      refine ⟨existing, idx, hex, hchk, hr', ?_⟩
      rw [← h.1, hr']

theorem wf_update (s : DbState) (id : String) (u : ReportPatch) (now : Int)
    (hwf : Wf s) (hgood : GoodPatch u) :
    Wf (InMemoryDatabase.update s id u now).1 := by
  cases hres : InMemoryDatabase.update s id u now with
  | mk s' res =>
    simp only
    cases res with
    | error e =>
      rw [update_error_state s id u now s' e hres]
      exact hwf
    | ok r' =>
      obtain ⟨existing, idx, hex, hchk, hr', hs'⟩ := update_ok_inv s id u now s' r' hres
      rw [hs']
      have hmt : r'.title = u.title.getD existing.title := by rw [hr']; rfl
      have hmo : r'.ownerId = u.ownerId.getD existing.ownerId := by rw [hr']; rfl
      rcases updateIndexCheck_ok s id existing u idx hwf hex hgood hchk with
        ⟨hidx, hkeq⟩ | ⟨hidx, hnone⟩
      · subst hidx
        exact wf_set_same_key s id existing r' hwf hex (by rw [hmt, hmo]; exact hkeq)
      · subst hidx
        have := wf_set_rekey s id existing r' hwf hex (by rw [hmt, hmo]; exact hnone)
        rw [hmt, hmo] at this
        exact this

theorem wf_delete (s : DbState) (id : String) (hwf : Wf s) :
    Wf (InMemoryDatabase.delete s id).1 := by
  unfold InMemoryDatabase.delete
  cases hex : mapGet s.reports id with
  | none => exact hwf
  | some report =>
    simp only
    constructor
    · intro id0 r0 hr0
      simp only at hr0 ⊢
      have hid : id0 ≠ id := by
        intro hc
        subst hc
        rw [mapGet_del_self] at hr0
        cases hr0
      rw [mapGet_del_ne _ _ _ hid] at hr0
      have hkr := hwf.1 id0 r0 hr0
      have hne : InMemoryDatabase.getBusinessKey r0.title r0.ownerId ≠
          InMemoryDatabase.getBusinessKey report.title report.ownerId := by
        intro hc
        rw [hc, hwf.1 id report hex] at hkr
        cases hkr
        exact hid rfl
      rw [mapGet_del_ne _ _ _ hne]
      exact hkr
    · intro k i hk
      simp only at hk ⊢
      have hkne : k ≠ InMemoryDatabase.getBusinessKey report.title report.ownerId := by
        intro hc
        subst hc
        rw [mapGet_del_self] at hk
        cases hk
      rw [mapGet_del_ne _ _ _ hkne] at hk
      obtain ⟨r, hr, hrk⟩ := hwf.2 k i hk
      have hine : i ≠ id := by
        intro hc
        subst hc
        rw [hex] at hr
        cases hr
        exact hkne hrk.symm
      exact ⟨r, by rw [mapGet_del_ne _ _ _ hine]; exact hr, hrk⟩

/-- The store states reachable through the store's own operations, where
`create` is called with a fresh `uuidv4()` id and `update` with patches whose
`title`/`ownerId`, when present, are non-empty (as the validated service
layer guarantees). -/
inductive Reachable : DbState → Prop
  | empty : Reachable dbEmpty
  | create (s : DbState) (input : CreateReportInput) (newId : String) (now : Int) :
      Reachable s → mapGet s.reports newId = none →
      Reachable (InMemoryDatabase.create s input newId now).1
  | update (s : DbState) (id : String) (u : ReportPatch) (now : Int) :
      Reachable s → GoodPatch u →
      Reachable (InMemoryDatabase.update s id u now).1
  | delete (s : DbState) (id : String) :
      Reachable s → Reachable (InMemoryDatabase.delete s id).1

theorem reachable_wf (s : DbState) (h : Reachable s) : Wf s := by
  induction h with
  | empty => exact wf_empty
  | create s input newId now _ hfresh ih => exact wf_create s input newId now ih hfresh
  | update s id u now _ hgood ih => exact wf_update s id u now ih hgood
  | delete s id _ ih => exact wf_delete s id ih

theorem businessKey_congr (t1 o1 t2 o2 : String) (ht : lowerStr t1 = lowerStr t2)
    (ho : o1 = o2) :
    InMemoryDatabase.getBusinessKey t1 o1 = InMemoryDatabase.getBusinessKey t2 o2 := by
  unfold InMemoryDatabase.getBusinessKey
  rw [ht, ho]

/-- On a consistent store, two live reports with the same
(lower-cased title, ownerId) pair are the same report. -/
theorem wf_pair_unique (s : DbState) (hwf : Wf s) (id1 id2 : String)
    (r1 r2 : Report) (h1 : mapGet s.reports id1 = some r1)
    (h2 : mapGet s.reports id2 = some r2)
    (ht : lowerStr r1.title = lowerStr r2.title) (ho : r1.ownerId = r2.ownerId) :
    id1 = id2 := by
  have k1 := hwf.1 id1 r1 h1
  have k2 := hwf.1 id2 r2 h2
  rw [businessKey_congr _ _ _ _ ht ho] at k1
  rw [k2] at k1
  exact (Option.some.inj k1).symm

/-- A sequence of store updates, all of which must succeed. -/
def applyUpdates (s : DbState) (id : String) (us : List (ReportPatch × Int)) :
    Option DbState :=
  match us with
  | [] => some s
  | (u, t) :: rest =>
    match InMemoryDatabase.update s id u t with
    | (s', .ok _) => applyUpdates s' id rest
    | (_, .error _) => none

theorem applyUpdates_version (us : List (ReportPatch × Int)) (s : DbState)
    (id : String) (r : Report) (s' : DbState)
    (hr : mapGet s.reports id = some r) (h : applyUpdates s id us = some s') :
    ∃ r', mapGet s'.reports id = some r' ∧ r'.version = r.version + us.length := by
  induction us generalizing s r with
  | nil =>
    simp only [applyUpdates] at h
    cases h
    exact ⟨r, hr, by simp⟩
  | cons p rest ih =>
    obtain ⟨u, t⟩ := p
    simp only [applyUpdates] at h
    cases hstep : InMemoryDatabase.update s id u t with
    | mk s1 res =>
      rw [hstep] at h
      cases res with
      | error e => simp at h
      | ok r1 =>
        simp only at h
        obtain ⟨existing, idx, hex, _, hr1, hs1⟩ :=
          update_ok_inv s id u t s1 r1 hstep
        rw [hr] at hex
        cases hex
        have hr1get : mapGet s1.reports id = some r1 := by
          rw [hs1]
          exact mapGet_set_self _ _ _
        obtain ⟨r2, hr2, hv2⟩ := ih s1 r1 hr1get h
        refine ⟨r2, hr2, ?_⟩
        rw [hv2, hr1]
        simp [InMemoryDatabase.mergeReport]
        omega

/-! ## Concrete fixtures used by witnesses and counterexamples -/

/-- A create input: `{title: "Q4", ownerId: "u1"}` with defaults applied. -/
def repQ4 : CreateReportInput := { title := "Q4", ownerId := "u1", status := .draft }

/-- The store after creating `repQ4` under id `"id1"` at time 0. -/
def sQ4 : DbState := (InMemoryDatabase.create dbEmpty repQ4 "id1" 0).1

/-- The report stored in `sQ4`. -/
def rQ4 : Report :=
  { id := "id1", title := "Q4", status := .draft, ownerId := "u1",
    createdAt := 0, updatedAt := 0, version := 1, metadata := none,
    entries := [], comments := [], attachments := [], auditLog := [],
    tags := [], description := none }

example : mapGet sQ4.reports "id1" = some rQ4 := by decide

/-! ## Claim theorems -/

/-- C1: Version monotonicity of the store.  Every successful call to the
store's `update` strictly increases the stored report's version by exactly 1
and stamps `updatedAt` with the write time; consequently, after N successful
updates of a report stored at version 1, the stored version equals 1 + N. -/
theorem c1_version_monotonicity :
    (∀ (s : DbState) (id : String) (u : ReportPatch) (now : Int)
        (s' : DbState) (r' : Report),
        InMemoryDatabase.update s id u now = (s', .ok r') →
        ∃ r, mapGet s.reports id = some r ∧ r'.version = r.version + 1 ∧
          r'.updatedAt = now ∧ mapGet s'.reports id = some r') ∧
    (∀ (s : DbState) (id : String) (r : Report)
        (us : List (ReportPatch × Int)) (s' : DbState),
        mapGet s.reports id = some r → r.version = 1 →
        applyUpdates s id us = some s' →
        ∃ r', mapGet s'.reports id = some r' ∧ r'.version = 1 + us.length) := by
  constructor
  · intro s id u now s' r' h
    obtain ⟨existing, idx, hex, hchk, hr', hs'⟩ := update_ok_inv s id u now s' r' h
    refine ⟨existing, hex, ?_, ?_, ?_⟩
    · rw [hr']; rfl
    · rw [hr']; rfl
    · rw [hs']; exact mapGet_set_self _ _ _
  · intro s id r us s' hr hv h
    obtain ⟨r', hr', hv'⟩ := applyUpdates_version us s id r s' hr h
    exact ⟨r', hr', by rw [hv', hv]⟩

/-- The state after one status update of `sQ4` at time 5. -/
def c1wS1 : DbState :=
  (InMemoryDatabase.update sQ4 "id1" { status := some .in_progress } 5).1

/-- The report returned by that update. -/
def c1wR1 : Report :=
  { id := "id1", title := "Q4", status := .in_progress, ownerId := "u1",
    createdAt := 0, updatedAt := 5, version := 2, metadata := none,
    entries := [], comments := [], attachments := [], auditLog := [],
    tags := [], description := none }

/-- Two further updates applied in sequence to `sQ4`. -/
def c1wUs : List (ReportPatch × Int) :=
  [({ status := some .in_progress }, 5), ({ description := some (some "d") }, 6)]

/-- The state after applying `c1wUs`. -/
def c1wS2 : DbState := (applyUpdates sQ4 "id1" c1wUs).getD dbEmpty

theorem c1_version_monotonicity_witness :
    (∃ r, mapGet sQ4.reports "id1" = some r ∧ c1wR1.version = r.version + 1 ∧
      c1wR1.updatedAt = 5 ∧ mapGet c1wS1.reports "id1" = some c1wR1) ∧
    (∃ r', mapGet c1wS2.reports "id1" = some r' ∧ r'.version = 1 + c1wUs.length) :=
  ⟨c1_version_monotonicity.1 sQ4 "id1" { status := some .in_progress } 5 c1wS1 c1wR1
      (by decide),
   c1_version_monotonicity.2 sQ4 "id1" rQ4 c1wUs c1wS2 (by decide) (by decide)
      (by decide)⟩

/-- C2: Optimistic lock.  If the stored report is at version V and the
supplied `expectedVersion` W differs from V, `updateReport` fails with a
`VERSION_CONFLICT` error carrying both versions, and the store — hence the
stored report with all its fields, including `version` and `auditLog` — is
returned unchanged. -/
theorem c2_optimistic_lock (s : DbState) (id : String) (u : UpdateReportInput)
    (userId : String) (role : Role) (w : Nat) (ik : Option String) (now : Int)
    (r : Report) (hr : mapGet s.reports id = some r) (hw : w ≠ r.version) :
    ReportService.updateReport s id u userId role (some w) ik now =
      (s, .error (versionConflictError r.version w)) := by
  simp only [ReportService.updateReport, hr]
  rw [if_pos (fun hc => hw hc.symm)]

theorem c2_optimistic_lock_witness :
    ReportService.updateReport sQ4 "id1" { status := some .in_progress }
      "u1" Role.editor (some 7) none 5 =
      (sQ4, .error (versionConflictError rQ4.version 7)) :=
  c2_optimistic_lock sQ4 "id1" { status := some .in_progress } "u1" Role.editor 7
    none 5 rQ4 (by decide) (by decide)

/-- C10: Protected-field immunity of the store's `update`.  Whenever `update`
returns a report, that report keeps the existing report's `id` and
`createdAt`, its version is the existing version plus one, and `updatedAt`
is the write time — regardless of what the patch says for those four fields
(the witness supplies a patch that sets all four). -/
theorem c10_protected_fields (s : DbState) (id : String) (u : ReportPatch)
    (now : Int) (s' : DbState) (r' : Report)
    (h : InMemoryDatabase.update s id u now = (s', .ok r')) :
    ∃ existing, mapGet s.reports id = some existing ∧
      r'.id = existing.id ∧ r'.createdAt = existing.createdAt ∧
      r'.version = existing.version + 1 ∧ r'.updatedAt = now := by
  obtain ⟨existing, idx, hex, hchk, hr', hs'⟩ := update_ok_inv s id u now s' r' h
  refine ⟨existing, hex, ?_, ?_, ?_, ?_⟩ <;> rw [hr'] <;> rfl

/-- A patch that tries to overwrite every protected field. -/
def c10wPatch : ReportPatch :=
  { id := some "spoofed", createdAt := some 111, updatedAt := some 222,
    version := some 99, status := some .archived }

/-- The state after applying `c10wPatch` to `sQ4` at time 7. -/
def c10wS1 : DbState := (InMemoryDatabase.update sQ4 "id1" c10wPatch 7).1

/-- The report returned by that update: protected fields kept. -/
def c10wR1 : Report :=
  { id := "id1", title := "Q4", status := .archived, ownerId := "u1",
    createdAt := 0, updatedAt := 7, version := 2, metadata := none,
    entries := [], comments := [], attachments := [], auditLog := [],
    tags := [], description := none }

theorem c10_protected_fields_witness :
    ∃ existing, mapGet sQ4.reports "id1" = some existing ∧
      c10wR1.id = existing.id ∧ c10wR1.createdAt = existing.createdAt ∧
      c10wR1.version = existing.version + 1 ∧ c10wR1.updatedAt = 7 :=
  c10_protected_fields sQ4 "id1" c10wPatch 7 c10wS1 c10wR1 (by decide)

/-- The raw `POST /reports` body `{title:"Q4", ownerId:"u1"}`. -/
def c5req : CreateReportRequest := { title := "Q4", ownerId := "u1" }

/-- C5 (code bug): creating `{title:"Q4", ownerId:"u1"}` parses with status
defaulting to `draft`, but `createReport` returns the report at version 2,
not 1: the CREATED audit entry is appended through the store's `update`,
which increments the version a second time.  The repository's own README
documents `"version": 1` in the create response. -/
theorem c5_createReport_version :
    parseCreateReport c5req = .ok repQ4 ∧
    ((ReportService.createReport dbEmpty repQ4 "u1" "id1" 0).2.toOption.map
      (fun r => (r.version, r.status, r.auditLog.length))) =
      some (2, ReportStatus.draft, 1) := by
  exact ⟨by decide, by decide⟩

/-- C9 counterexample: two pairs that differ in both components — lower-cased
titles "a:b" vs "a", ownerIds "c" vs "b:c" — derive the same business key
"a:b:c", because the separator `:` may itself occur in either field. -/
theorem c9_business_key_counterexample :
    InMemoryDatabase.getBusinessKey "a:b" "c" =
      InMemoryDatabase.getBusinessKey "a" "b:c" ∧
    lowerStr "a:b" ≠ lowerStr "a" ∧ ("c" : String) ≠ "b:c" := by
  exact ⟨by decide, by decide, by decide⟩

/-- Splitting a list at a separator that occurs in neither tail is
unambiguous. -/
theorem append_sep_inj {α : Type} [DecidableEq α] (c : α) (a1 b1 a2 b2 : List α)
    (hb1 : c ∉ b1) (hb2 : c ∉ b2)
    (h : a1 ++ c :: b1 = a2 ++ c :: b2) : a1 = a2 ∧ b1 = b2 := by
  induction a1 generalizing a2 with
  | nil =>
    cases a2 with
    | nil => simpa using h
    | cons x a2' =>
      exfalso
      rw [List.nil_append, List.cons_append, List.cons.injEq] at h
      apply hb1
      rw [h.2]
      exact List.mem_append_right a2' (List.mem_cons_self c b2)
  | cons x a1' ih =>
    cases a2 with
    | nil =>
      exfalso
      rw [List.nil_append, List.cons_append, List.cons.injEq] at h
      apply hb2
      rw [← h.2]
      exact List.mem_append_right a1' (List.mem_cons_self c b1)
    | cons y a2' =>
      rw [List.cons_append, List.cons_append, List.cons.injEq] at h
      obtain ⟨hab, hbb⟩ := ih a2' h.2
      exact ⟨by rw [h.1, hab], hbb⟩

/-- C9 (amended): the business-key derivation is injective on pairs whose
`ownerId` contains no `:` separator: if the lower-cased titles differ or the
ownerIds differ, the derived keys differ.  (The counterexample shows the
restriction is necessary: with `:` inside the fields, distinct pairs can
collide on one key.) -/
theorem c9_business_key_injective (t1 o1 t2 o2 : String)
    (h1 : ':' ∉ o1.data) (h2 : ':' ∉ o2.data)
    (hne : lowerStr t1 ≠ lowerStr t2 ∨ o1 ≠ o2) :
    InMemoryDatabase.getBusinessKey t1 o1 ≠ InMemoryDatabase.getBusinessKey t2 o2 := by
  intro h
  unfold InMemoryDatabase.getBusinessKey at h
  have hd := congrArg String.data h
  rw [String.data_append, String.data_append, String.data_append,
    String.data_append] at hd
  have hsep : (":" : String).data = [':'] := rfl
  rw [hsep, List.append_assoc, List.append_assoc, List.singleton_append,
    List.singleton_append] at hd
  obtain ⟨ha, hb⟩ := append_sep_inj ':' _ _ _ _ h1 h2 hd
  rcases hne with hne | hne
  · exact hne (String.ext ha)
  · exact hne (String.ext hb)

theorem c9_business_key_injective_witness :
    InMemoryDatabase.getBusinessKey "Q4" "u1" ≠
      InMemoryDatabase.getBusinessKey "Q4x" "u1" :=
  c9_business_key_injective "Q4" "u1" "Q4x" "u1" (by decide) (by decide)
    (.inl (by decide))

/-- Store with one report titled `"a"` owned by `"u"`. -/
def c3sA : DbState :=
  (InMemoryDatabase.create dbEmpty
    { title := "a", ownerId := "u", status := .draft } "idA" 0).1

/-- The same store after a raw patch `{title: ""}`: the empty string is falsy
in JavaScript, so the store skips the business-key re-index while still
merging the new title. -/
def c3sB : DbState := (InMemoryDatabase.update c3sA "idA" { title := some "" } 1).1

/-- Creating a second report with the pair `("", "u")` against `c3sB`. -/
def c3res : DbState × Except AppError Report :=
  InMemoryDatabase.create c3sB
    { title := "", ownerId := "u", status := .draft } "idB" 2

/-- C3 counterexample: after a store `update` whose patch carries
`title: ""`, a `create` whose (lower-cased title, ownerId) pair matches the
live report's pair succeeds instead of failing with `DUPLICATE_REPORT`, and
the resulting store holds two distinct live reports sharing the pair
`("", "u")`. -/
theorem c3_uniqueness_counterexample :
    c3res.2 = .ok
      { id := "idB", title := "", status := .draft, ownerId := "u",
        createdAt := 2, updatedAt := 2, version := 1, metadata := none,
        entries := [], comments := [], attachments := [], auditLog := [],
        tags := [], description := none } ∧
    (mapGet c3res.1.reports "idA").map (fun r => (lowerStr r.title, r.ownerId)) =
      some ("", "u") ∧
    (mapGet c3res.1.reports "idB").map (fun r => (lowerStr r.title, r.ownerId)) =
      some ("", "u") ∧
    ("idA" : String) ≠ "idB" := by
  exact ⟨by decide, by decide, by decide, by decide⟩

theorem or_eq_false_components (a b : Bool) (h : ¬((a || b) = true)) :
    a = false ∧ b = false := by
  cases a <;> cases b <;> simp_all

/-- Lifts a store-level `updateIndexCheck` failure to the `update` result. -/
theorem update_check_error (s : DbState) (id : String) (u : ReportPatch)
    (now : Int) (existing : Report) (e : AppError)
    (hex : mapGet s.reports id = some existing)
    (hchk : InMemoryDatabase.updateIndexCheck s id existing u = .error e) :
    InMemoryDatabase.update s id u now = (s, .error e) := by
  unfold InMemoryDatabase.update
  split
  · rename_i heq
    rw [hex] at heq
    exact Option.noConfusion heq
  · rename_i ex' heq
    rw [hex] at heq
    cases Option.some.inj heq
    split
    · rename_i e' heq'
      rw [hchk] at heq'
      cases Except.error.inj heq'
      rfl
    · rename_i idx heq'
      rw [hchk] at heq'
      exact Except.noConfusion heq'

/-- C3 (amended): restricted to update patches whose `title`/`ownerId`
fields, when present, are non-empty — which is what the validated service
layer always passes — the business-key uniqueness invariant holds at every
reachable store state: no two live reports share the
(lower-cased title, ownerId) pair; a `create` whose pair matches a live
report's fails with `DUPLICATE_REPORT` leaving the store unchanged; and an
`update` that would change a report's pair to collide with a different live
report's pair fails with `DUPLICATE_REPORT`, with neither the data map nor
the index modified. -/
theorem c3_business_key_uniqueness :
    (∀ s : DbState, Reachable s →
      ∀ (id1 id2 : String) (r1 r2 : Report),
        mapGet s.reports id1 = some r1 → mapGet s.reports id2 = some r2 →
        lowerStr r1.title = lowerStr r2.title → r1.ownerId = r2.ownerId →
        id1 = id2) ∧
    (∀ s : DbState, Reachable s →
      ∀ (input : CreateReportInput) (newId : String) (now : Int)
        (id0 : String) (r0 : Report),
        mapGet s.reports id0 = some r0 →
        lowerStr input.title = lowerStr r0.title → input.ownerId = r0.ownerId →
        InMemoryDatabase.create s input newId now = (s, .error duplicateReportError)) ∧
    (∀ s : DbState, Reachable s →
      ∀ (id : String) (u : ReportPatch) (now : Int) (existing : Report)
        (id2 : String) (r2 : Report),
        GoodPatch u →
        mapGet s.reports id = some existing →
        id2 ≠ id → mapGet s.reports id2 = some r2 →
        lowerStr (u.title.getD existing.title) = lowerStr r2.title →
        u.ownerId.getD existing.ownerId = r2.ownerId →
        InMemoryDatabase.update s id u now = (s, .error duplicateReportError)) := by
  refine ⟨?_, ?_, ?_⟩
  · intro s hreach id1 id2 r1 r2 h1 h2 ht ho
    exact wf_pair_unique s (reachable_wf s hreach) id1 id2 r1 r2 h1 h2 ht ho
  · intro s hreach input newId now id0 r0 hr0 ht ho
    have hwf := reachable_wf s hreach
    have hkey : InMemoryDatabase.getBusinessKey input.title input.ownerId =
        InMemoryDatabase.getBusinessKey r0.title r0.ownerId :=
      businessKey_congr _ _ _ _ ht ho
    have hidx := hwf.1 id0 r0 hr0
    simp only [InMemoryDatabase.create]
    rw [hkey, hidx]
    rfl
  · intro s hreach id u now existing id2 r2 hgood hex hid2 hr2 ht ho
    have hwf := reachable_wf s hreach
    have hkey : InMemoryDatabase.getBusinessKey (u.title.getD existing.title)
        (u.ownerId.getD existing.ownerId) =
        InMemoryDatabase.getBusinessKey r2.title r2.ownerId :=
      businessKey_congr _ _ _ _ ht ho
    have hidx2 : mapGet s.businessKeyIndex
        (InMemoryDatabase.getBusinessKey (u.title.getD existing.title)
          (u.ownerId.getD existing.ownerId)) = some id2 := by
      rw [hkey]
      exact hwf.1 id2 r2 hr2
    have hidx1 := hwf.1 id existing hex
    have htr : (strTruthy u.title || strTruthy u.ownerId) = true := by
      by_contra hc
      obtain ⟨hT, hO⟩ := or_eq_false_components _ _ hc
      have hT' := strTruthy_false u.title hgood.1 hT
      have hO' := strTruthy_false u.ownerId hgood.2 hO
      rw [hT'] at ht
      rw [hO'] at ho
      exact hid2 (wf_pair_unique s hwf id2 id r2 existing hr2 hex ht.symm ho.symm)
    have hchk : InMemoryDatabase.updateIndexCheck s id existing u =
        .error duplicateReportError := by
      unfold InMemoryDatabase.updateIndexCheck
      rw [strOrElse_eq_getD u.title existing.title hgood.1,
          strOrElse_eq_getD u.ownerId existing.ownerId hgood.2]
      rw [if_pos htr]
      have hkne : InMemoryDatabase.getBusinessKey existing.title existing.ownerId ≠
          InMemoryDatabase.getBusinessKey (u.title.getD existing.title)
            (u.ownerId.getD existing.ownerId) := by
        intro hc
        rw [hc, hidx2] at hidx1
        exact hid2 (Option.some.inj hidx1)
      rw [if_pos hkne]
      rw [if_pos ⟨by rw [hidx2]; rfl,
        by rw [hidx2]; intro hc; exact hid2 (Option.some.inj hc)⟩]
    exact update_check_error s id u now existing duplicateReportError hex hchk

/-- A second report `("R5", "u1")` created next to `repQ4`. -/
def repR5 : CreateReportInput := { title := "R5", ownerId := "u1", status := .draft }

/-- Store holding both `repQ4` (id1) and `repR5` (idB). -/
def c3wS2 : DbState := (InMemoryDatabase.create sQ4 repR5 "idB" 1).1

/-- The second stored report. -/
def rR5 : Report :=
  { id := "idB", title := "R5", status := .draft, ownerId := "u1",
    createdAt := 1, updatedAt := 1, version := 1, metadata := none,
    entries := [], comments := [], attachments := [], auditLog := [],
    tags := [], description := none }

theorem c3_business_key_uniqueness_witness :
    ("id1" : String) = "id1" ∧
    InMemoryDatabase.create sQ4
      { title := "q4", ownerId := "u1", status := .draft } "idB" 3 =
      (sQ4, .error duplicateReportError) ∧
    InMemoryDatabase.update c3wS2 "idB" { title := some "q4" } 9 =
      (c3wS2, .error duplicateReportError) :=
  ⟨c3_business_key_uniqueness.1 sQ4
      (Reachable.create dbEmpty repQ4 "id1" 0 Reachable.empty (by decide))
      "id1" "id1" rQ4 rQ4 (by decide) (by decide) (by decide) (by decide),
   c3_business_key_uniqueness.2.1 sQ4
      (Reachable.create dbEmpty repQ4 "id1" 0 Reachable.empty (by decide))
      { title := "q4", ownerId := "u1", status := .draft } "idB" 3 "id1" rQ4
      (by decide) (by decide) (by decide),
   c3_business_key_uniqueness.2.2 c3wS2
      (Reachable.create sQ4 repR5 "idB" 1
        (Reachable.create dbEmpty repQ4 "id1" 0 Reachable.empty (by decide))
        (by decide))
      "idB" { title := some "q4" } 9 rR5 "id1" rQ4
      ⟨by decide, by decide⟩ (by decide) (by decide) (by decide) (by decide)
      (by decide)⟩

/-- Inversion of a failing `updateIndexCheck`: only the duplicate-key throw
can occur, and only when the truthy branch re-keys to an occupied key. -/
theorem updateIndexCheck_error_inv (s : DbState) (id : String) (existing : Report)
    (u : ReportPatch) (e : AppError)
    (h : InMemoryDatabase.updateIndexCheck s id existing u = .error e) :
    e = duplicateReportError ∧
    (strTruthy u.title || strTruthy u.ownerId) = true ∧
    (mapGet s.businessKeyIndex
      (InMemoryDatabase.getBusinessKey (strOrElse u.title existing.title)
        (strOrElse u.ownerId existing.ownerId))).isSome = true ∧
    mapGet s.businessKeyIndex
      (InMemoryDatabase.getBusinessKey (strOrElse u.title existing.title)
        (strOrElse u.ownerId existing.ownerId)) ≠ some id := by
  unfold InMemoryDatabase.updateIndexCheck at h
  by_cases htr : (strTruthy u.title || strTruthy u.ownerId) = true
  · rw [if_pos htr] at h
    by_cases hkeys : InMemoryDatabase.getBusinessKey existing.title existing.ownerId ≠
        InMemoryDatabase.getBusinessKey (strOrElse u.title existing.title)
          (strOrElse u.ownerId existing.ownerId)
    · rw [if_pos hkeys] at h
      by_cases hdup : (mapGet s.businessKeyIndex
            (InMemoryDatabase.getBusinessKey (strOrElse u.title existing.title)
              (strOrElse u.ownerId existing.ownerId))).isSome = true ∧
          mapGet s.businessKeyIndex
            (InMemoryDatabase.getBusinessKey (strOrElse u.title existing.title)
              (strOrElse u.ownerId existing.ownerId)) ≠ some id
      · rw [if_pos hdup] at h
        exact ⟨(Except.error.inj h).symm, htr, hdup.1, hdup.2⟩
      · rw [if_neg hdup] at h
        exact Except.noConfusion h
    · rw [if_neg hkeys] at h
      exact Except.noConfusion h
  · rw [if_neg htr] at h
    exact Except.noConfusion h

/-- Lifts a successful `updateIndexCheck` to the full `update` result. -/
theorem update_check_ok (s : DbState) (id : String) (u : ReportPatch) (now : Int)
    (existing : Report) (idx : List (String × String))
    (hex : mapGet s.reports id = some existing)
    (hchk : InMemoryDatabase.updateIndexCheck s id existing u = .ok idx) :
    InMemoryDatabase.update s id u now =
      ({ reports := mapSet s.reports id (InMemoryDatabase.mergeReport existing u now),
         businessKeyIndex := idx },
       .ok (InMemoryDatabase.mergeReport existing u now)) := by
  unfold InMemoryDatabase.update
  split
  · rename_i heq
    rw [hex] at heq
    exact Option.noConfusion heq
  · rename_i ex' heq
    rw [hex] at heq
    cases Option.some.inj heq
    split
    · rename_i e' heq'
      rw [hchk] at heq'
      exact Except.noConfusion heq'
    · rename_i idx' heq'
      rw [hchk] at heq'
      cases Except.ok.inj heq'
      rfl

theorem getLast?_append_singleton {α : Type} (l : List α) (a : α) :
    (l ++ [a]).getLast? = some a :=
  List.getLast?_concat l

/-- A store update with a service-built patch (no `ownerId`, truthy titles
not colliding with a different report's key) always succeeds. -/
theorem update_service_patch_ok (s : DbState) (id : String) (u : ReportPatch)
    (now : Int) (existing : Report)
    (hex : mapGet s.reports id = some existing)
    (hown : u.ownerId = none)
    (hnodup : ∀ t, u.title = some t → t ≠ "" →
      ¬((mapGet s.businessKeyIndex
          (InMemoryDatabase.getBusinessKey t existing.ownerId)).isSome = true ∧
        mapGet s.businessKeyIndex
          (InMemoryDatabase.getBusinessKey t existing.ownerId) ≠ some id)) :
    ∃ s', InMemoryDatabase.update s id u now =
      (s', .ok (InMemoryDatabase.mergeReport existing u now)) := by
  cases hchk : InMemoryDatabase.updateIndexCheck s id existing u with
  | ok idx => exact ⟨_, update_check_ok s id u now existing idx hex hchk⟩
  | error e =>
    exfalso
    obtain ⟨-, htr, hsome, hneq⟩ := updateIndexCheck_error_inv s id existing u e hchk
    rw [hown] at htr
    simp only [strTruthy, Bool.or_false] at htr
    cases hti : u.title with
    | none =>
      rw [hti] at htr
      simp [strTruthy] at htr
    | some t =>
      rw [hti] at htr
      simp only [strTruthy, decide_eq_true_eq] at htr
      have hsor : strOrElse u.title existing.title = t := by
        rw [hti]
        simp [strOrElse, htr]
      have hsoo : strOrElse u.ownerId existing.ownerId = existing.ownerId := by
        rw [hown]
        rfl
      rw [hsor, hsoo] at hsome hneq
      exact hnodup t hti htr ⟨hsome, hneq⟩

/-- Reduces `updateReport` to its post-version-check body when the supplied
expected version is absent or matches. -/
theorem updateReport_to_checked (s : DbState) (id : String)
    (u : UpdateReportInput) (userId : String) (role : Role) (ver : Option Nat)
    (ik : Option String) (now : Int) (existing : Report)
    (hex : mapGet s.reports id = some existing)
    (hver : ver = none ∨ ver = some existing.version) :
    ReportService.updateReport s id u userId role ver ik now =
      ReportService.updateReportChecked s id u userId role existing ik now := by
  rcases hver with h | h
  · subst h
    simp only [ReportService.updateReport, hex]
  · subst h
    simp only [ReportService.updateReport, hex]
    rw [if_neg (fun hc => hc rfl)]

/-- Store holding `repQ4` (id1, draft) and `repR5` (idB) with idB finalized. -/
def c4s : DbState :=
  (InMemoryDatabase.update c3wS2 "idB" { status := some .finalized } 2).1

/-- C4 counterexample: an editor updating the finalized report `idB` with
`force:true` does not succeed — the requested title `"q4"` collides with
report `id1`'s business key, so the call fails with `DUPLICATE_REPORT`. -/
theorem c4_finalized_counterexample :
    (mapGet c4s.reports "idB").map Report.status = some ReportStatus.finalized ∧
    ReportService.updateReport c4s "idB"
      { title := some "q4", force := some true } "u9" Role.editor none none 3 =
      (c4s, .error duplicateReportError) := by
  exact ⟨by decide, by decide⟩

/-- C4 (amended): (a) through the PUT pipeline, a reader is rejected with
`FORBIDDEN` by the `authorize('editor')` middleware before any handler code
runs, for every report and payload; (b) an editor updating a finalized
report without a truthy `force` fails with `FORCE_REQUIRED` and the store —
hence the report and its audit log — is unchanged; (c) an editor updating a
finalized report with `force:true` passes the finalized-protection gate and,
provided the update does not collide with a different report's business key
(otherwise the store throws `DUPLICATE_REPORT`, as the counterexample
shows), succeeds with the resulting report's latest audit-log entry carrying
`metadata.forced == true`. -/
theorem c4_finalized_protection :
    (∀ (s : DbState) (cache : List (String × Report)) (usr : User) (id : String)
        (ifMatch : Option Nat) (ik : Option String) (body : UpdateReportInput)
        (now : Int),
        usr.role = Role.reader →
        Routes.putReport s cache (some usr) id ifMatch ik body now =
          ((s, cache), .error insufficientPermissionsError)) ∧
    (∀ (s : DbState) (id : String) (u : UpdateReportInput) (userId : String)
        (ver : Option Nat) (ik : Option String) (now : Int) (existing : Report),
        mapGet s.reports id = some existing →
        existing.status = .finalized →
        u.force.getD false = false →
        (ver = none ∨ ver = some existing.version) →
        ReportService.updateReport s id u userId Role.editor ver ik now =
          (s, .error forceRequiredError)) ∧
    (∀ (s : DbState) (id : String) (u : UpdateReportInput) (userId : String)
        (ver : Option Nat) (ik : Option String) (now : Int) (existing : Report),
        mapGet s.reports id = some existing →
        existing.status = .finalized →
        u.force = some true →
        (ver = none ∨ ver = some existing.version) →
        (∀ t, u.title = some t → t ≠ "" →
          ¬((mapGet s.businessKeyIndex
              (InMemoryDatabase.getBusinessKey t existing.ownerId)).isSome = true ∧
            mapGet s.businessKeyIndex
              (InMemoryDatabase.getBusinessKey t existing.ownerId) ≠ some id)) →
        ∃ s' r', ReportService.updateReport s id u userId Role.editor ver ik now =
            (s', .ok r') ∧
          ∃ last, r'.auditLog.getLast? = some last ∧
            last.metadata =
              some { forced := true, idempotencyKey := ik }) := by
  refine ⟨?_, ?_, ?_⟩
  · intro s cache usr id ifMatch ik body now hrole
    have hauth : authorize [Role.editor] (some usr) =
        some insufficientPermissionsError := by
      simp only [authorize]
      rw [if_pos (by rw [hrole]; decide)]
    simp only [Routes.putReport, hauth]
  · intro s id u userId ver ik now existing hex hfin hforce hver
    rw [updateReport_to_checked s id u userId Role.editor ver ik now existing hex hver]
    simp only [ReportService.updateReportChecked]
    rw [if_pos hfin]
    rw [if_neg (fun hc => hc rfl)]
    rw [if_pos (by rw [hforce]; decide)]
  · intro s id u userId ver ik now existing hex hfin hforce hver hnodup
    rw [updateReport_to_checked s id u userId Role.editor ver ik now existing hex hver]
    simp only [ReportService.updateReportChecked]
    rw [if_pos hfin]
    rw [if_neg (fun hc => hc rfl)]
    rw [if_neg (by rw [hforce]; decide)]
    obtain ⟨s', hup⟩ := update_service_patch_ok s id
      (ReportService.actualUpdates existing u
        (ReportService.updateAuditEntry existing u userId ik now))
      now existing hex rfl
      (by
        intro t ht hne
        exact hnodup t ht hne)
    refine ⟨s', _, hup, ?_⟩
    refine ⟨ReportService.updateAuditEntry existing u userId ik now, ?_, ?_⟩
    · show ((ReportService.actualUpdates existing u
          (ReportService.updateAuditEntry existing u userId ik now)).auditLog.getD
            existing.auditLog).getLast? = _
      simp only [ReportService.actualUpdates, Option.getD_some]
      exact getLast?_append_singleton _ _
    · simp only [ReportService.updateAuditEntry]
      rw [hforce]
      rfl

/-- The finalized report stored at `idB` in `c4s`. -/
def rB2 : Report :=
  { id := "idB", title := "R5", status := .finalized, ownerId := "u1",
    createdAt := 1, updatedAt := 2, version := 2, metadata := none,
    entries := [], comments := [], attachments := [], auditLog := [],
    tags := [], description := none }

theorem c4_finalized_protection_witness :
    Routes.putReport sQ4 [] (some { userId := "u2", username := "r", role := .reader })
      "id1" none none {} 4 =
      ((sQ4, []), .error insufficientPermissionsError) ∧
    ReportService.updateReport c4s "idB" { title := some "T2" } "u9" Role.editor
      none none 4 = (c4s, .error forceRequiredError) ∧
    (∃ s' r', ReportService.updateReport c4s "idB"
        { status := some .draft, force := some true } "u9" Role.editor none none 5 =
        (s', .ok r') ∧
      ∃ last, r'.auditLog.getLast? = some last ∧
        last.metadata = some { forced := true, idempotencyKey := none }) :=
  ⟨c4_finalized_protection.1 sQ4 [] { userId := "u2", username := "r", role := .reader }
      "id1" none none {} 4 rfl,
   c4_finalized_protection.2.1 c4s "idB" { title := some "T2" } "u9" none none 4 rB2
      (by decide) (by decide) (by decide) (.inl rfl),
   c4_finalized_protection.2.2 c4s "idB" { status := some .draft, force := some true }
      "u9" none none 5 rB2 (by decide) (by decide) (by decide) (.inl rfl)
      (fun t ht => Option.noConfusion ht)⟩

theorem jsCeilDiv_mul_ge (n s : Nat) (hs : 0 < s) : n ≤ jsCeilDiv n s * s := by
  unfold jsCeilDiv
  have h1 := Nat.div_add_mod (n + s - 1) s
  have h2 := Nat.mod_lt (n + s - 1) hs
  rw [Nat.mul_comm]
  generalize hm : s * ((n + s - 1) / s) = m at h1 ⊢
  omega

theorem jsCeilDiv_mul_lt (n s : Nat) (hs : 0 < s) : jsCeilDiv n s * s < n + s := by
  unfold jsCeilDiv
  have h1 := Nat.div_add_mod (n + s - 1) s
  have h2 := Nat.mod_lt (n + s - 1) hs
  rw [Nat.mul_comm]
  generalize hm : s * ((n + s - 1) / s) = m at h1 ⊢
  omega

instance : IsTotal Entry (fun a b => priorityRank a.priority ≤ priorityRank b.priority) :=
  ⟨fun _ _ => Nat.le_total _ _⟩

instance : IsTrans Entry (fun a b => priorityRank a.priority ≤ priorityRank b.priority) :=
  ⟨fun _ _ _ hab hbc => Nat.le_trans hab hbc⟩

/-- A truthy `filterPriority` first filters the entry list; the rest of the
pipeline is unchanged. -/
theorem filterAndPaginate_truthy (entries : List Entry) (page size : Option Nat)
    (sortBy : Option String) (fp : String) (hfp : fp ≠ "") :
    ReportService.filterAndPaginateEntries entries page size sortBy (some fp) =
      ReportService.filterAndPaginateEntries
        (entries.filter (fun e => decide (priorityName e.priority = fp)))
        page size sortBy none := by
  simp only [ReportService.filterAndPaginateEntries]
  have hgate : strTruthy (some fp) = true := by simp [strTruthy, hfp]
  rw [hgate]
  rfl

/-- `sortBy=priority` sorts by severity rank; the rest of the pipeline is
unchanged. -/
theorem filterAndPaginate_sortPriority (l : List Entry) (page size : Option Nat) :
    ReportService.filterAndPaginateEntries l page size (some "priority") none =
      ReportService.filterAndPaginateEntries
        (List.insertionSort
          (fun a b => priorityRank a.priority ≤ priorityRank b.priority) l)
        page size none none := rfl

/-- C6: Entry projection pipeline.  For a truthy `filterPriority` value:
(1) with no sort or pagination, the pipeline returns exactly the entries
whose priority name equals the value, in order (with the membership
characterization); (2) `sortBy=priority` returns a permutation of that
filtered list ordered critical ≤ high ≤ medium ≤ low by severity rank;
(3) with both `page` and `size` (positive) supplied, the result is the
`{data, pagination}` wrapper whose data is the slice
`[page*size, page*size+size)` of the filtered+sorted list, whose `total` is
the filtered list's length and whose `totalPages` is the exact ceiling of
`total / size` (characterized by the two inequalities); an out-of-range
page yields an empty data array with the same totals, not an error. -/
theorem c6_entry_projection (entries : List Entry) (fp : String) (page size : Nat)
    (hfp : fp ≠ "") (hsize : 0 < size) :
    (ReportService.filterAndPaginateEntries entries none none none (some fp) =
      .plain (entries.filter (fun e => decide (priorityName e.priority = fp))) ∧
     ∀ e, e ∈ entries.filter (fun e => decide (priorityName e.priority = fp)) ↔
        e ∈ entries ∧ priorityName e.priority = fp) ∧
    (∃ l : List Entry, ReportService.filterAndPaginateEntries entries none none
        (some "priority") (some fp) = .plain l ∧
      l.Perm (entries.filter (fun e => decide (priorityName e.priority = fp))) ∧
      l.Pairwise (fun a b => priorityRank a.priority ≤ priorityRank b.priority)) ∧
    (∃ l : List Entry,
      l.Perm (entries.filter (fun e => decide (priorityName e.priority = fp))) ∧
      l.Pairwise (fun a b => priorityRank a.priority ≤ priorityRank b.priority) ∧
      ReportService.filterAndPaginateEntries entries (some page) (some size)
        (some "priority") (some fp) =
        .paged ((l.drop (page * size)).take size) page size l.length
          (jsCeilDiv l.length size) ∧
      l.length ≤ jsCeilDiv l.length size * size ∧
      jsCeilDiv l.length size * size < l.length + size ∧
      (l.length ≤ page * size → (l.drop (page * size)).take size = [])) := by
  refine ⟨⟨?_, ?_⟩, ?_, ?_⟩
  · rw [filterAndPaginate_truthy entries none none none fp hfp]
    rfl
  · intro e
    simp [List.mem_filter]
  · rw [filterAndPaginate_truthy entries none none (some "priority") fp hfp,
      filterAndPaginate_sortPriority]
    exact ⟨_, rfl, List.perm_insertionSort _ _, List.sorted_insertionSort _ _⟩
  · rw [filterAndPaginate_truthy entries (some page) (some size) (some "priority")
      fp hfp, filterAndPaginate_sortPriority]
    refine ⟨List.insertionSort
        (fun a b => priorityRank a.priority ≤ priorityRank b.priority)
        (entries.filter (fun e => decide (priorityName e.priority = fp))),
      List.perm_insertionSort _ _, List.sorted_insertionSort _ _, ?_, ?_, ?_, ?_⟩
    · have hsl : ∀ L : List Entry,
          jsSlice L (page * size) (page * size + size) =
            (L.drop (page * size)).take size := by
        intro L
        unfold jsSlice
        rw [Nat.add_sub_cancel_left]
      rw [← hsl]
      rfl
    · exact jsCeilDiv_mul_ge _ size hsize
    · exact jsCeilDiv_mul_lt _ size hsize
    · intro h
      rw [List.drop_eq_nil_of_le h]
      exact List.take_nil

/-- Entry fixtures with priorities [low, critical, high], as in the spec's
projection example. -/
def eLow : Entry :=
  { id := "e1", priority := .low, timestamp := 100, value := "v1", status := .pending }

def eCrit : Entry :=
  { id := "e2", priority := .critical, timestamp := 200, value := "v2", status := .active }

def eHigh : Entry :=
  { id := "e3", priority := .high, timestamp := 300, value := "v3", status := .completed }

example :
    ReportService.filterAndPaginateEntries [eLow, eCrit, eHigh] none none
      (some "priority") none = .plain [eCrit, eHigh, eLow] := by decide

example :
    ReportService.filterAndPaginateEntries [eLow, eCrit, eHigh] (some 0) (some 1)
      none none = .paged [eLow] 0 1 3 3 := by decide

example :
    ReportService.filterAndPaginateEntries [eLow, eCrit, eHigh] (some 5) (some 2)
      none none = .paged [] 5 2 3 2 := by decide

theorem c6_entry_projection_witness :
    ReportService.filterAndPaginateEntries [eLow, eCrit, eHigh] none none none
      (some "high") = .plain [eHigh] :=
  (c6_entry_projection [eLow, eCrit, eHigh] "high" 0 1 (by decide) (by decide)).1.1

/-- A report with one completed high-priority entry. -/
def rSum : Report :=
  { id := "r7", title := "T", status := .draft, ownerId := "u1",
    createdAt := 0, updatedAt := 0, version := 1, metadata := none,
    entries := [eHigh], comments := [], attachments := [], auditLog := [],
    tags := [], description := none }

/-- A store holding `rSum`. -/
def c7s : DbState :=
  { reports := [("r7", rSum)], businessKeyIndex := [("t:u1", "r7")] }

/-- C7 counterexample: the summary view of a report with a completed entry
carries an `averageCompletionTime` field (value 24) in addition to the ten
fields the claim allows — the spread of `computeFields` brings it along. -/
theorem c7_summary_counterexample :
    (ReportService.getReportWithView c7s "r7" (some "summary") none none none
        none none 1000).toOption.map (fun l => mapGet l "averageCompletionTime") =
      some (some (.optNum (some 24))) ∧
    "averageCompletionTime" ∉
      ["id", "title", "status", "ownerId", "createdAt", "updatedAt",
       "totalEntries", "completedEntries", "recentActivityCount",
       "highPriorityCount"] := by
  exact ⟨by decide, by decide⟩

/-- C7 (amended): for every stored report, `view=summary` returns exactly
the fields id, title, status, ownerId, createdAt, updatedAt plus the
computed metrics totalEntries (entry count), completedEntries (count of
entries with status completed), recentActivityCount (count of entries whose
timestamp is strictly newer than 7 days before now — future timestamps
included), highPriorityCount (count of entries with priority high or
critical), and additionally averageCompletionTime (24 when at least one
entry is completed, undefined otherwise); no other fields. -/
theorem c7_summary_view (s : DbState) (id : String) (r : Report) (now : Int)
    (includes : Option (List String)) (page size : Option Nat)
    (sortBy filterPriority : Option String)
    (hr : mapGet s.reports id = some r) :
    ReportService.getReportWithView s id (some "summary") includes page size
        sortBy filterPriority now =
      .ok [("id", .str r.id),
           ("title", .str r.title),
           ("status", .reportStatus r.status),
           ("ownerId", .str r.ownerId),
           ("createdAt", .time r.createdAt),
           ("updatedAt", .time r.updatedAt),
           ("totalEntries", .num r.entries.length),
           ("completedEntries",
             .num (r.entries.countP (fun e => decide (e.status = .completed)))),
           ("recentActivityCount",
             .num (r.entries.countP
               (fun e => decide (now - 7 * 24 * 60 * 60 * 1000 < e.timestamp)))),
           ("highPriorityCount",
             .num (r.entries.countP
               (fun e => decide (e.priority = .high) || decide (e.priority = .critical)))),
           ("averageCompletionTime",
             .optNum (if 0 < r.entries.countP (fun e => decide (e.status = .completed))
               then some 24 else none))] := by
  simp only [ReportService.getReportWithView, hr]
  rw [if_pos trivial]
  simp only [ReportService.summaryView, ReportService.computeFields,
    List.countP_eq_length_filter]

/-- The summary view of `rSum` at time 1000, fully evaluated. -/
theorem c7_summary_view_witness :
    ReportService.getReportWithView c7s "r7" (some "summary") none none none
        none none 1000 =
      .ok [("id", .str "r7"),
           ("title", .str "T"),
           ("status", .reportStatus .draft),
           ("ownerId", .str "u1"),
           ("createdAt", .time 0),
           ("updatedAt", .time 0),
           ("totalEntries", .num 1),
           ("completedEntries", .num 1),
           ("recentActivityCount", .num 1),
           ("highPriorityCount", .num 1),
           ("averageCompletionTime", .optNum (some 24))] := by
  have h := c7_summary_view c7s "r7" rSum 1000 none none none none none (by decide)
  rw [h]
  decide

/-- A validated token whose resolved storage key differs from the requested
attachment's `storageKey` is rejected with the 403 FORBIDDEN
"Token does not match attachment" error, serving no bytes. -/
theorem download_mismatch_forbidden (s : DbState) (fs fs' : FileState)
    (id aid t : String) (now : Int) (key : String) (r : Report) (att : Attachment)
    (ht : t ≠ "")
    (hval : FileStorage.validateDownloadToken fs t now = (fs', some key))
    (hrep : mapGet s.reports id = some r)
    (hatt : r.attachments.find? (fun a => decide (a.id = aid)) = some att)
    (hne : att.storageKey ≠ key) :
    Routes.downloadAttachment s fs id aid (some t) now =
      (fs', .error tokenMismatchError) := by
  have hst : strTruthy (some t) = true := by simp [strTruthy, ht]
  simp only [Routes.downloadAttachment, hst, Option.getD_some, hval, hrep, hatt,
    not_true, if_false, Bool.true_eq_false, reduceCtorEq]
  rw [if_pos hne]

/-- C8: Download-token scoping.  (a) When the presented token validates but
resolves to a storage key different from the one recorded on the requested
attachment, the download fails with the 403 FORBIDDEN mismatch error and no
bytes are served.  (b) Conversely, whenever the download endpoint serves a
response for a request whose token resolves to `key`, the requested
attachment's recorded `storageKey` equals `key`. -/
theorem c8_download_token_scoping :
    (∀ (s : DbState) (fs fs' : FileState) (id aid t : String) (now : Int)
        (key : String) (r : Report) (att : Attachment),
        t ≠ "" →
        FileStorage.validateDownloadToken fs t now = (fs', some key) →
        mapGet s.reports id = some r →
        r.attachments.find? (fun a => decide (a.id = aid)) = some att →
        att.storageKey ≠ key →
        Routes.downloadAttachment s fs id aid (some t) now =
          (fs', .error tokenMismatchError)) ∧
    (∀ (s : DbState) (fs fs' fs2 : FileState) (id aid t : String) (now : Int)
        (key : String) (r : Report) (att : Attachment)
        (resp : Routes.DownloadResponse),
        t ≠ "" →
        FileStorage.validateDownloadToken fs t now = (fs', some key) →
        mapGet s.reports id = some r →
        r.attachments.find? (fun a => decide (a.id = aid)) = some att →
        Routes.downloadAttachment s fs id aid (some t) now = (fs2, .ok resp) →
        att.storageKey = key) := by
  constructor
  · intro s fs fs' id aid t now key r att ht hval hrep hatt hne
    exact download_mismatch_forbidden s fs fs' id aid t now key r att ht hval hrep
      hatt hne
  · intro s fs fs' fs2 id aid t now key r att resp ht hval hrep hatt hok
    by_cases heq : att.storageKey = key
    · exact heq
    · exfalso
      rw [download_mismatch_forbidden s fs fs' id aid t now key r att ht hval hrep
        hatt heq] at hok
      rw [Prod.mk.injEq] at hok
      exact Except.noConfusion hok.2

/-- Attachment fixtures: two attachments of one report, with distinct
storage keys; a token bound to `keyA`. -/
def attA : Attachment :=
  { id := "attA", filename := "keyA.pdf", originalName := "file.pdf",
    mimeType := "application/pdf", size := 3, uploadedAt := 0,
    uploadedBy := "u1", storageKey := "keyA" }

def attB : Attachment :=
  { id := "attB", filename := "keyB.pdf", originalName := "other.pdf",
    mimeType := "application/pdf", size := 3, uploadedAt := 0,
    uploadedBy := "u1", storageKey := "keyB" }

def rAtt : Report :=
  { id := "r8", title := "T8", status := .draft, ownerId := "u1",
    createdAt := 0, updatedAt := 0, version := 1, metadata := none,
    entries := [], comments := [], attachments := [attA, attB], auditLog := [],
    tags := [], description := none }

def c8s : DbState :=
  { reports := [("r8", rAtt)], businessKeyIndex := [("t8:u1", "r8")] }

def c8fs : FileState :=
  { files := [("keyA.pdf", "BYTES")], downloadTokens := [("tokA", ("keyA", 9999))] }

theorem c8_download_token_scoping_witness :
    Routes.downloadAttachment c8s c8fs "r8" "attB" (some "tokA") 5 =
      (c8fs, .error tokenMismatchError) ∧
    attA.storageKey = "keyA" :=
  ⟨c8_download_token_scoping.1 c8s c8fs c8fs "r8" "attB" "tokA" 5 "keyA" rAtt attB
      (by decide) (by decide) (by decide) (by decide) (by decide),
   c8_download_token_scoping.2 c8s c8fs c8fs c8fs "r8" "attA" "tokA" 5 "keyA" rAtt
      attA { mimeType := "application/pdf", filename := "file.pdf", bytes := "BYTES" }
      (by decide) (by decide) (by decide) (by decide) (by decide)⟩
